import Mathlib

/-!
Shallow embedding of `scheduler.go` (package `scheduler`).

Durations are modelled as `Int`, in nanoseconds, matching Go's
`time.Duration` (an `int64` count of nanoseconds, with two's-complement
wraparound on arithmetic).  The subtraction `s.interval - passedTime`
performed in `scheduleLoop` is therefore embedded with an explicit
64-bit wrap.
-/

namespace GoScheduler

/-- `time.Nanosecond` as an `Int` number of nanoseconds. -/
def nanosecond : Int := 1

/-- Smallest value of Go's `int64` (hence of `time.Duration`). -/
def int64Min : Int := -(2 ^ 63)

/-- Largest value of Go's `int64` (hence of `time.Duration`). -/
def int64Max : Int := 2 ^ 63 - 1

/-- Two's-complement wraparound of an integer into the `int64` range,
the semantics of Go arithmetic on `time.Duration`. -/
def wrap64 (x : Int) : Int := (x + 2 ^ 63) % 2 ^ 64 - 2 ^ 63

/-- The confirmation branch of `scheduleLoop` (scheduler.go lines 96-102):
`waitTime := s.interval - passedTime` (int64 arithmetic), and
`if waitTime < 0 { waitTime = time.Nanosecond }`.  Returns the duration
passed to `timer.Reset`. -/
def computeWait (interval elapsed : Int) : Int :=
  let waitTime := wrap64 (interval - elapsed)
  if waitTime < 0 then nanosecond else waitTime

/-- The initial one-shot timer of `scheduleLoop` (scheduler.go line 84):
`timer := time.NewTimer(time.Nanosecond)`.  The configured interval is
not consulted. -/
def initialArm (_interval : Int) : Int := nanosecond

/-- Idealised run-start times of a single uncontended Schedule: the head
is the start of the next run, and each following start is obtained by
adding the execution duration (after which `timer.Reset` happens) plus
the computed wait. -/
def runStarts (interval : Int) (ds : List Int) (s0 : Int) : List Int :=
  match ds with
  | [] => [s0]
  | d :: rest => s0 :: runStarts interval rest (s0 + d + computeWait interval d)

/-- Embedding of the `Schedule` struct (scheduler.go lines 34-38); the
worker is kept opaque, and the confirmation channel is represented by
its capacity, the only statically fixed datum of `make(chan confirmation, 1)`. -/
structure Schedule (W : Type) where
  interval : Int
  worker : W
  confirmationCap : Nat
deriving DecidableEq

/-- Embedding of the `Scheduler` struct (scheduler.go lines 27-30). -/
structure Scheduler (W : Type) where
  schedules : List (Schedule W)
  jobchCap : Nat
deriving DecidableEq

/-- Embedding of `New` (scheduler.go lines 41-48): zero-valued
`schedules` slice and `jobch := make(chan *Schedule, 1)`. -/
def New (W : Type) : Scheduler W :=
  { schedules := [], jobchCap := 1 }

/-- Embedding of `AddSchedule` (scheduler.go lines 73-81): build a
Schedule from the given worker and interval with a fresh capacity-1
confirmation channel, and append it to `scheduler.schedules`. -/
def AddSchedule (s : Scheduler W) (w : W) (interval : Int) : Scheduler W :=
  { s with
    schedules :=
      s.schedules ++ [{ interval := interval, worker := w, confirmationCap := 1 }] }

lemma wrap64_eq_self {x : Int} (h1 : int64Min ≤ x) (h2 : x ≤ int64Max) :
    wrap64 x = x := by
  unfold wrap64 int64Min int64Max at *
  have hmod : (x + 2 ^ 63) % 2 ^ 64 = x + 2 ^ 63 :=
    Int.emod_eq_of_lt (by omega) (by omega)
  omega

lemma computeWait_eq_of_inrange {interval elapsed : Int}
    (h1 : int64Min ≤ interval - elapsed) (h2 : interval - elapsed ≤ int64Max) :
    computeWait interval elapsed =
      if interval - elapsed < 0 then nanosecond else interval - elapsed := by
  unfold computeWait
  rw [wrap64_eq_self h1 h2]

/-- Control state of one `scheduleLoop` goroutine (scheduler.go lines
83-105).  `idle`: blocked in the `select` with its one-shot timer armed;
`sending`: the timer fired, `startTime` recorded, blocked on `jobch <- s`;
`dispatched`: the send completed, back in the `select` with the timer
spent, so only the confirmation-channel case can fire. -/
inductive SState
  | idle
  | sending
  | dispatched
deriving DecidableEq, Repr

/-- Control state of the single `workerLoop` goroutine (scheduler.go
lines 50-56).  `widle`: blocked on `<-scheduler.jobch`; `running i`:
inside `schedule.worker.PerformWork()` for schedule `i`; `acking i`:
`PerformWork` returned, sending on `schedule.confirmationChannel`. -/
inductive WState
  | widle
  | running (i : Nat)
  | acking (i : Nat)
deriving DecidableEq, Repr

/-- Global state of a Scheduler with its registered Schedules: per-
Schedule loop states, the worker-loop state, the contents of the shared
capacity-1 `jobch` buffer (a Schedule is identified by its index), and
the contents of each Schedule's capacity-1 `confirmationChannel`. -/
structure Config where
  sched : List SState
  worker : WState
  jobch : Option Nat
  conf : List Bool
deriving DecidableEq, Repr

/-- Transition labels, one per atomic event of the two loops. -/
inductive Label
  | fire (i : Nat)
  | send (i : Nat)
  | take (i : Nat)
  | finish (i : Nat)
  | ack (i : Nat)
  | recv (i : Nat)
  | recvIdle (i : Nat)
deriving DecidableEq, Repr

/-- Small-step semantics of the goroutines of scheduler.go.
`fire`: schedule `i`'s timer fires, `startTime` is recorded (line 90);
`send`: `jobch <- s` completes, possible only while the capacity-1
buffer is empty (line 91);
`take`: the worker loop receives schedule `i` from `jobch` and enters
`PerformWork` (lines 52-53);
`finish`: `PerformWork` returns (line 53);
`ack`: the worker loop deposits `true` into schedule `i`'s capacity-1
confirmation channel (line 54);
`recv`: schedule `i`'s `select` takes the confirmation, computes the
next wait, and re-arms its timer with `timer.Reset` (lines 96-102);
`recvIdle`: the same confirmation branch taken while the timer is still
armed, which the `select` statement would permit if a confirmation were
ever pending in that state. -/
inductive Step : Config → Label → Config → Prop
  | fire (c : Config) (i : Nat) :
      c.sched[i]? = some SState.idle →
      Step c (Label.fire i) ⟨c.sched.set i SState.sending, c.worker, c.jobch, c.conf⟩
  | send (c : Config) (i : Nat) :
      c.sched[i]? = some SState.sending →
      c.jobch = none →
      Step c (Label.send i) ⟨c.sched.set i SState.dispatched, c.worker, some i, c.conf⟩
  | take (c : Config) (i : Nat) :
      c.worker = WState.widle →
      c.jobch = some i →
      Step c (Label.take i) ⟨c.sched, WState.running i, none, c.conf⟩
  | finish (c : Config) (i : Nat) :
      c.worker = WState.running i →
      Step c (Label.finish i) ⟨c.sched, WState.acking i, c.jobch, c.conf⟩
  | ack (c : Config) (i : Nat) :
      c.worker = WState.acking i →
      c.conf[i]? = some false →
      Step c (Label.ack i) ⟨c.sched, WState.widle, c.jobch, c.conf.set i true⟩
  | recv (c : Config) (i : Nat) :
      c.sched[i]? = some SState.dispatched →
      c.conf[i]? = some true →
      Step c (Label.recv i) ⟨c.sched.set i SState.idle, c.worker, c.jobch, c.conf.set i false⟩
  | recvIdle (c : Config) (i : Nat) :
      c.sched[i]? = some SState.idle →
      c.conf[i]? = some true →
      Step c (Label.recvIdle i) ⟨c.sched, c.worker, c.jobch, c.conf.set i false⟩

/-- Initial configuration with `n` registered Schedules: every
`scheduleLoop` starts with its 1ns timer armed, the worker loop is
blocked on the empty `jobch`, and every confirmation channel is empty. -/
def init (n : Nat) : Config :=
  ⟨List.replicate n SState.idle, WState.widle, none, List.replicate n false⟩

/-- Some step with some label. -/
def StepAny (a b : Config) : Prop := ∃ l, Step a l b

/-- Configurations reachable from the initial one with `n` Schedules. -/
def Reachable (n : Nat) (c : Config) : Prop :=
  Relation.ReflTransGen StepAny (init n) c

/-- Whether the worker loop is occupied (running or acknowledging) on
behalf of schedule `i`. -/
def busy (w : WState) (i : Nat) : Bool :=
  match w with
  | WState.running j => j == i
  | WState.acking j => j == i
  | WState.widle => false

/-- Number of outstanding dispatch tokens of schedule `i`: its entry in
the `jobch` buffer, its occupancy of the worker loop, and its pending
confirmation, summed. -/
def tokens (c : Config) (i : Nat) : Nat :=
  (if c.jobch = some i then 1 else 0) +
    (if busy c.worker i then 1 else 0) +
    (if c.conf[i]? = some true then 1 else 0)

/-- The key inductive invariant: schedule `i` holds exactly one
outstanding dispatch token when its loop is in state `dispatched`, and
none otherwise. -/
def Inv (c : Config) : Prop :=
  ∀ i, tokens c i = if c.sched[i]? = some SState.dispatched then 1 else 0

lemma inv_init (n : Nat) : Inv (init n) := by
  intro i
  by_cases h : i < n
  · simp [init, tokens, busy, List.getElem?_replicate, h]
  · simp [init, tokens, busy, List.getElem?_replicate, h]

lemma lt_length_of_getElem?_eq_some {l : List α} {i : Nat} {a : α}
    (h : l[i]? = some a) : i < l.length := by
  by_contra hc
  push_neg at hc
  rw [List.getElem?_eq_none hc] at h
  cases h

lemma inv_step {c c' : Config} {l : Label} (hs : Step c l c') (hI : Inv c) : Inv c' := by
  cases hs with
  | fire i h =>
      intro j
      have hj := hI j
      have hlen : i < c.sched.length := lt_length_of_getElem?_eq_some h
      by_cases hij : i = j
      · subst hij
        simp only [tokens] at hj ⊢
        rw [List.getElem?_set_eq_of_lt _ hlen]
        rw [h] at hj
        simpa using hj
      · simp only [tokens] at hj ⊢
        rw [List.getElem?_set_ne hij]
        exact hj
  | send i h hch =>
      intro j
      have hj := hI j
      have hlen : i < c.sched.length := lt_length_of_getElem?_eq_some h
      by_cases hij : i = j
      · subst hij
        simp only [tokens, hch] at hj ⊢
        rw [List.getElem?_set_eq_of_lt _ hlen]
        rw [h] at hj
        have h1 : (if (none : Option Nat) = some i then 1 else 0) = (0 : Nat) := by simp
        have h2 : (if (some SState.sending : Option SState) = some SState.dispatched
            then 1 else 0) = (0 : Nat) := by simp
        have h3 : (if (some i : Option Nat) = some i then 1 else 0) = (1 : Nat) := by simp
        have h4 : (if (some SState.dispatched : Option SState) = some SState.dispatched
            then 1 else 0) = (1 : Nat) := by simp
        rw [h1, h2] at hj
        simp only [if_true, eq_self_iff_true, h3, h4]
        omega
      · simp only [tokens, hch] at hj ⊢
        rw [List.getElem?_set_ne hij]
        simp only [Option.some.injEq, hij] at hj ⊢
        simpa using hj
  | take i hw hch =>
      intro j
      have hj := hI j
      simp only [tokens, hw, hch, busy] at hj ⊢
      by_cases hij : i = j
      · subst hij
        simp at hj ⊢
        omega
      · simp [hij] at hj ⊢
        omega
  | finish i hw =>
      intro j
      have hj := hI j
      simp only [tokens, hw, busy] at hj ⊢
      exact hj
  | ack i hw hcf =>
      intro j
      have hj := hI j
      have hlen : i < c.conf.length := lt_length_of_getElem?_eq_some hcf
      simp only [tokens, hw, busy] at hj ⊢
      by_cases hij : i = j
      · subst hij
        rw [List.getElem?_set_eq_of_lt _ hlen]
        rw [hcf] at hj
        simp at hj ⊢
        omega
      · rw [List.getElem?_set_ne hij]
        simp [hij] at hj ⊢
        omega
  | recv i h hcf =>
      intro j
      have hj := hI j
      have hlen : i < c.sched.length := lt_length_of_getElem?_eq_some h
      have hlenc : i < c.conf.length := lt_length_of_getElem?_eq_some hcf
      by_cases hij : i = j
      · subst hij
        simp only [tokens] at hj ⊢
        rw [List.getElem?_set_eq_of_lt _ hlen, List.getElem?_set_eq_of_lt _ hlenc]
        rw [h, hcf] at hj
        have h1 : (if (some true : Option Bool) = some true then 1 else 0) = (1 : Nat) := by simp
        have h2 : (if (some SState.dispatched : Option SState) = some SState.dispatched
            then 1 else 0) = (1 : Nat) := by simp
        have h3 : (if (some false : Option Bool) = some true then 1 else 0) = (0 : Nat) := by simp
        have h4 : (if (some SState.idle : Option SState) = some SState.dispatched
            then 1 else 0) = (0 : Nat) := by simp
        rw [h1, h2] at hj
        simp only [if_true, eq_self_iff_true, h3, h4]
        omega
      · simp only [tokens] at hj ⊢
        rw [List.getElem?_set_ne hij, List.getElem?_set_ne hij]
        exact hj
  | recvIdle i h hcf =>
      intro j
      have hj := hI j
      have hlenc : i < c.conf.length := lt_length_of_getElem?_eq_some hcf
      by_cases hij : i = j
      · subst hij
        simp only [tokens] at hj ⊢
        rw [List.getElem?_set_eq_of_lt _ hlenc]
        rw [h, hcf] at hj
        have h1 : (if (some true : Option Bool) = some true then 1 else 0) = (1 : Nat) := by simp
        have h2 : (if (some SState.idle : Option SState) = some SState.dispatched
            then 1 else 0) = (0 : Nat) := by simp
        rw [h1, h2] at hj
        omega
      · simp only [tokens] at hj ⊢
        rw [List.getElem?_set_ne hij]
        exact hj

lemma inv_reachable {n : Nat} {c : Config} (h : Reachable n c) : Inv c := by
  induction h with
  | refl => exact inv_init n
  | tail _ hstep ih =>
      rcases hstep with ⟨l, hstep⟩
      exact inv_step hstep ih

/-- Schedule `i`'s job is being executed: the single worker loop is
inside `PerformWork` on its behalf. -/
def executing (c : Config) (i : Nat) : Prop := c.worker = WState.running i

/-- Claim C1, counterexample: with interval 20 and execution durations
5, 10, 1, the code's run starts are 0, 20, 40, 60, not the 0, 20, 30, 49
stated by the claim (the code re-arms the timer at completion time
`start + d` with wait `interval - d`, so consecutive starts are a full
interval apart whenever `d` is at most the interval). -/
theorem scheduler_C1_counterexample :
    runStarts 20 [5, 10, 1] 0 = [0, 20, 40, 60] ∧
      runStarts 20 [5, 10, 1] 0 ≠ [0, 20, 30, 49] := by decide

/-- Claim C1, amended: for an in-range interval and duration, the time
between the start of run k and the start of run k+1 is max(I, d + 1ns)
up to one nanosecond; with interval 20 and durations 5, 10, 1 the
computed waits are 15, 10, 19 and the run starts are 0, 20, 40, 60. -/
theorem scheduler_C1 (I d : Int) (_hd : 0 ≤ d)
    (h1 : int64Min ≤ I - d) (h2 : I - d ≤ int64Max) :
    |d + computeWait I d - max I (d + nanosecond)| ≤ 1 ∧
      List.map (computeWait 20) [5, 10, 1] = [15, 10, 19] ∧
      runStarts 20 [5, 10, 1] 0 = [0, 20, 40, 60] := by
  refine ⟨?_, by decide, by decide⟩
  rw [computeWait_eq_of_inrange h1 h2]
  unfold nanosecond
  rw [abs_le, max_def]
  constructor <;> split_ifs <;> omega

/-- Claim C1, witness at interval 20, duration 5. -/
theorem scheduler_C1_witness :
    (0 : Int) ≤ 5 ∧ int64Min ≤ (20 : Int) - 5 ∧ (20 : Int) - 5 ≤ int64Max ∧
      (|5 + computeWait 20 5 - max 20 (5 + nanosecond)| ≤ 1 ∧
        List.map (computeWait 20) [5, 10, 1] = [15, 10, 19] ∧
        runStarts 20 [5, 10, 1] 0 = [0, 20, 40, 60]) :=
  ⟨by decide, by decide, by decide, scheduler_C1 20 5 (by decide) (by decide) (by decide)⟩

/-- Claim C2, counterexample: when the elapsed time equals the interval
the computed wait is exactly zero, and the code's guard `waitTime < 0`
does not replace it, so `timer.Reset` is called with a zero duration. -/
theorem scheduler_C2_counterexample :
    computeWait 20 20 = 0 ∧ ¬ 0 < computeWait 20 20 := by decide

/-- Claim C2, amended: for in-range values the wait armed on the timer
is never negative, but the clamp applies only to strictly negative
computed waits; a computed wait of exactly zero is passed to the timer
unchanged. -/
theorem scheduler_C2 (I e : Int) (h1 : int64Min ≤ I - e) (h2 : I - e ≤ int64Max) :
    0 ≤ computeWait I e ∧
      (I - e < 0 → computeWait I e = nanosecond) ∧
      (0 ≤ I - e → computeWait I e = I - e) := by
  rw [computeWait_eq_of_inrange h1 h2]
  unfold nanosecond
  refine ⟨?_, ?_, ?_⟩ <;> intros <;> split_ifs <;> omega

/-- Claim C2, witness at interval 20, elapsed 25. -/
theorem scheduler_C2_witness :
    int64Min ≤ (20 : Int) - 25 ∧ (20 : Int) - 25 ≤ int64Max ∧
      (0 ≤ computeWait 20 25 ∧
        ((20 : Int) - 25 < 0 → computeWait 20 25 = nanosecond) ∧
        (0 ≤ (20 : Int) - 25 → computeWait 20 25 = (20 : Int) - 25)) :=
  ⟨by decide, by decide, scheduler_C2 20 25 (by decide) (by decide)⟩

/-- Claim C8, counterexample: at the extreme interval `int64Min` with
elapsed time 1ns, the Go subtraction `interval - passedTime` wraps
around to `int64Max`, which is positive, so the wait is not clamped to
the minimal duration and the job does not run back-to-back. -/
theorem scheduler_C8_counterexample :
    int64Min ≤ 0 ∧ (0 : Int) < 1 ∧ computeWait int64Min 1 = int64Max ∧
      computeWait int64Min 1 ≠ nanosecond := by decide

/-- Claim C8, amended: for a non-positive interval and positive elapsed
time whose difference does not underflow `int64`, the computed wait is
clamped to the minimal positive duration. -/
theorem scheduler_C8 (interval elapsed : Int) (h1 : interval ≤ 0) (h2 : 0 < elapsed)
    (h3 : int64Min ≤ interval - elapsed) :
    computeWait interval elapsed = nanosecond := by
  have h4 : interval - elapsed ≤ int64Max := by unfold int64Max; omega
  rw [computeWait_eq_of_inrange h3 h4]
  have hlt : interval - elapsed < 0 := by omega
  rw [if_pos hlt]

/-- Claim C8, witness at interval 0, elapsed 5. -/
theorem scheduler_C8_witness :
    (0 : Int) ≤ 0 ∧ (0 : Int) < 5 ∧ int64Min ≤ (0 : Int) - 5 ∧
      computeWait 0 5 = nanosecond :=
  ⟨le_refl 0, by decide, by decide, scheduler_C8 0 5 (le_refl 0) (by decide) (by decide)⟩

/-- Claim C6: every Schedule's first timer is armed with the minimal
duration (`time.Nanosecond`), whatever its configured interval. -/
theorem scheduler_C6 :
    (∀ interval : Int, initialArm interval = nanosecond) ∧ nanosecond = 1 ∧
      (∀ i1 i2 : Int, initialArm i1 = initialArm i2) :=
  ⟨fun _ => rfl, rfl, fun _ _ => rfl⟩

/-- Claim C9: `AddSchedule` appends exactly one Schedule, bound to the
given worker and interval with a fresh capacity-1 confirmation channel,
to the end of the schedules sequence; earlier entries and their order
are untouched and the only other Scheduler field is unchanged. -/
theorem scheduler_C9 (W : Type) (s : Scheduler W) (w : W) (interval : Int) :
    (AddSchedule s w interval).schedules =
        s.schedules ++ [{ interval := interval, worker := w, confirmationCap := 1 }] ∧
      (AddSchedule s w interval).jobchCap = s.jobchCap ∧
      (AddSchedule s w interval).schedules.take s.schedules.length = s.schedules ∧
      (AddSchedule s w interval).schedules.length = s.schedules.length + 1 := by
  refine ⟨rfl, rfl, ?_, by simp [AddSchedule]⟩
  simp [AddSchedule, List.take_left]

/-- Claim C10: the minimal positive duration is one nanosecond in both
places it is used: the initial one-shot timer of every timing loop, and
the clamped next wait. -/
theorem scheduler_C10 :
    (∀ interval : Int, initialArm interval = nanosecond) ∧ nanosecond = 1 ∧
      (∀ interval elapsed : Int, wrap64 (interval - elapsed) < 0 →
        computeWait interval elapsed = nanosecond) := by
  refine ⟨fun _ => rfl, rfl, ?_⟩
  intro I e h
  show (if wrap64 (I - e) < 0 then nanosecond else wrap64 (I - e)) = nanosecond
  rw [if_pos h]

/-- Claim C10, witness at interval 10, elapsed 15. -/
theorem scheduler_C10_witness :
    wrap64 ((10 : Int) - 15) < 0 ∧ computeWait 10 15 = nanosecond :=
  ⟨by decide, scheduler_C10.2.2 10 15 (by decide)⟩

/-- Claim C3: in every reachable configuration, at most one job's
`PerformWork` invocation is in progress system-wide. -/
theorem scheduler_C3 (n : Nat) (c : Config) (_hr : Reachable n c) (i j : Nat)
    (hi : executing c i) (hj : executing c j) : i = j := by
  unfold executing at hi hj
  rw [hi] at hj
  cases hj
  rfl

/-- Reachable configuration of a single Schedule whose job is being
executed by the worker loop. -/
def c3ex : Config := ⟨[SState.dispatched], WState.running 0, none, [false]⟩

lemma reachable_c3ex : Reachable 1 c3ex := by
  have s1 : Step (init 1) (Label.fire 0)
      ⟨[SState.sending], WState.widle, none, [false]⟩ := Step.fire (init 1) 0 rfl
  have s2 : Step ⟨[SState.sending], WState.widle, none, [false]⟩ (Label.send 0)
      ⟨[SState.dispatched], WState.widle, some 0, [false]⟩ := Step.send _ 0 rfl rfl
  have s3 : Step ⟨[SState.dispatched], WState.widle, some 0, [false]⟩ (Label.take 0)
      c3ex := Step.take _ 0 rfl rfl
  exact Relation.ReflTransGen.tail
    (Relation.ReflTransGen.tail
      (Relation.ReflTransGen.tail Relation.ReflTransGen.refl ⟨_, s1⟩) ⟨_, s2⟩) ⟨_, s3⟩

/-- Claim C3, witness: a reachable configuration with schedule 0
executing, at which the serialization theorem applies. -/
theorem scheduler_C3_witness : Reachable 1 c3ex ∧ (0 : Nat) = 0 :=
  ⟨reachable_c3ex, scheduler_C3 1 c3ex reachable_c3ex 0 0 rfl rfl⟩

/-- Claim C4: in every reachable configuration each Schedule has at most
one outstanding dispatch token (queued in `jobch`, occupying the worker,
or pending as a confirmation), and the only step that returns a
dispatched Schedule's loop to the armed state is the receipt of the
completion acknowledgment on that Schedule's own confirmation channel. -/
theorem scheduler_C4 :
    (∀ (n : Nat) (c : Config), Reachable n c → ∀ i, tokens c i ≤ 1) ∧
      (∀ (c c' : Config) (l : Label) (k : Nat), Step c l c' →
        c.sched[k]? = some SState.dispatched → c'.sched[k]? = some SState.idle →
        l = Label.recv k ∧ c.conf[k]? = some true) := by
  constructor
  · intro n c hr i
    have h := inv_reachable hr i
    rw [h]
    split <;> omega
  · intro c c' l k hs hD hIdle
    cases hs with
    | fire i h =>
        by_cases hik : i = k
        · subst hik
          rw [List.getElem?_set_eq_of_lt _ (lt_length_of_getElem?_eq_some h)] at hIdle
          simp at hIdle
        · rw [List.getElem?_set_ne hik] at hIdle
          rw [hD] at hIdle
          simp at hIdle
    | send i h hch =>
        by_cases hik : i = k
        · subst hik
          rw [List.getElem?_set_eq_of_lt _ (lt_length_of_getElem?_eq_some h)] at hIdle
          simp at hIdle
        · rw [List.getElem?_set_ne hik] at hIdle
          rw [hD] at hIdle
          simp at hIdle
    | take i hw hch =>
        rw [hD] at hIdle
        simp at hIdle
    | finish i hw =>
        rw [hD] at hIdle
        simp at hIdle
    | ack i hw hcf =>
        rw [hD] at hIdle
        simp at hIdle
    | recv i h hcf =>
        by_cases hik : i = k
        · subst hik
          exact ⟨rfl, hcf⟩
        · rw [List.getElem?_set_ne hik] at hIdle
          rw [hD] at hIdle
          simp at hIdle
    | recvIdle i h hcf =>
        rw [hD] at hIdle
        simp at hIdle

/-- Configuration of one Schedule whose completion acknowledgment is
pending, immediately before its loop consumes it and re-arms. -/
def c4pre : Config := ⟨[SState.dispatched], WState.widle, none, [true]⟩

/-- The configuration after the acknowledgment is consumed. -/
def c4post : Config := ⟨[SState.idle], WState.widle, none, [false]⟩

/-- Claim C4, witness: the token bound at the initial configuration and
the re-arm characterization at a concrete acknowledgment step. -/
theorem scheduler_C4_witness :
    tokens (init 1) 0 ≤ 1 ∧ (Label.recv 0 = Label.recv 0 ∧ c4pre.conf[0]? = some true) :=
  ⟨scheduler_C4.1 1 (init 1) Relation.ReflTransGen.refl 0,
    scheduler_C4.2 c4pre c4post (Label.recv 0) 0 (Step.recv c4pre 0 rfl rfl) rfl rfl⟩

/-- Reachable configuration of two Schedules in which the worker loop is
busy executing schedule 0's job while schedule 1's push onto the shared
dispatch channel has nevertheless already succeeded and sits queued in
the capacity-1 buffer. -/
def c5ex : Config :=
  ⟨[SState.dispatched, SState.dispatched], WState.running 0, some 1, [false, false]⟩

lemma reachable_c5ex : Reachable 2 c5ex := by
  have s1 : Step (init 2) (Label.fire 0)
      ⟨[SState.sending, SState.idle], WState.widle, none, [false, false]⟩ :=
    Step.fire (init 2) 0 rfl
  have s2 : Step ⟨[SState.sending, SState.idle], WState.widle, none, [false, false]⟩
      (Label.send 0)
      ⟨[SState.dispatched, SState.idle], WState.widle, some 0, [false, false]⟩ :=
    Step.send _ 0 rfl rfl
  have s3 : Step ⟨[SState.dispatched, SState.idle], WState.widle, some 0, [false, false]⟩
      (Label.take 0)
      ⟨[SState.dispatched, SState.idle], WState.running 0, none, [false, false]⟩ :=
    Step.take _ 0 rfl rfl
  have s4 : Step ⟨[SState.dispatched, SState.idle], WState.running 0, none, [false, false]⟩
      (Label.fire 1)
      ⟨[SState.dispatched, SState.sending], WState.running 0, none, [false, false]⟩ :=
    Step.fire _ 1 rfl
  have s5 : Step ⟨[SState.dispatched, SState.sending], WState.running 0, none, [false, false]⟩
      (Label.send 1) c5ex :=
    Step.send _ 1 rfl rfl
  exact Relation.ReflTransGen.tail
    (Relation.ReflTransGen.tail
      (Relation.ReflTransGen.tail
        (Relation.ReflTransGen.tail
          (Relation.ReflTransGen.tail Relation.ReflTransGen.refl ⟨_, s1⟩) ⟨_, s2⟩)
        ⟨_, s3⟩) ⟨_, s4⟩) ⟨_, s5⟩

/-- Claim C5, counterexample: a reachable configuration in which the
Scheduler's consumer is busy executing a job and yet another Schedule's
push has completed and sits queued, refuting that a push blocks whenever
the Scheduler is executing and that no pending run is queued while the
consumer is busy. -/
theorem scheduler_C5_counterexample :
    Reachable 2 c5ex ∧ c5ex.worker = WState.running 0 ∧ c5ex.jobch = some 1 :=
  ⟨reachable_c5ex, rfl, rfl⟩

/-- Claim C5, amended: a Schedule's push onto the shared dispatch
channel completes exactly when the capacity-1 buffer is empty — it
blocks only while another Schedule sits queued, not whenever the
consumer is executing a job — and at most one pending run can be queued
at a time. -/
theorem scheduler_C5 (c : Config) (i : Nat) (h : c.sched[i]? = some SState.sending) :
    ((∃ c', Step c (Label.send i) c') ↔ c.jobch = none) ∧
      (∀ j k : Nat, c.jobch = some j → c.jobch = some k → j = k) := by
  constructor
  · constructor
    · rintro ⟨c', hs⟩
      cases hs with
      | send _ _ h2 => exact h2
    · intro hch
      exact ⟨_, Step.send c i h hch⟩
  · intro j k hj hk
    exact Option.some_injective Nat (hj.symm.trans hk)

/-- Configuration of two Schedules with the consumer busy on schedule 0,
schedule 1 attempting its push, and the dispatch buffer empty. -/
def c5pre : Config :=
  ⟨[SState.dispatched, SState.sending], WState.running 0, none, [false, false]⟩

/-- Claim C5, witness: at `c5pre` the push of schedule 1 is enabled even
though the consumer is executing schedule 0's job. -/
theorem scheduler_C5_witness : ∃ c', Step c5pre (Label.send 1) c' :=
  ((scheduler_C5 c5pre 1 rfl).1).mpr rfl

/-- Claim C7: `New` starts with an empty schedule set and a capacity-1
dispatch channel, and the worker loop it spawns receives one Schedule at
a time from the dispatch channel, runs its worker, and reaches the
acknowledgment send — on that very Schedule's confirmation channel —
only from the state in which that Schedule's worker was running. -/
theorem scheduler_C7 :
    (∀ W : Type, (New W).schedules = [] ∧ (New W).jobchCap = 1) ∧
      (∀ (c c' : Config) (i : Nat), Step c (Label.take i) c' →
        c.worker = WState.widle ∧ c.jobch = some i ∧
          c'.worker = WState.running i ∧ c'.jobch = none) ∧
      (∀ (c c' : Config) (i : Nat), Step c (Label.ack i) c' →
        c.worker = WState.acking i ∧ c'.worker = WState.widle ∧
          c'.conf = c.conf.set i true) ∧
      (∀ (c c' : Config) (l : Label) (i : Nat), Step c l c' →
        c.worker ≠ c'.worker → c'.worker = WState.acking i →
        c.worker = WState.running i ∧ l = Label.finish i) := by
  refine ⟨fun W => ⟨rfl, rfl⟩, ?_, ?_, ?_⟩
  · intro c c' i hs
    cases hs with
    | take _ h1 h2 => exact ⟨h1, h2, rfl, rfl⟩
  · intro c c' i hs
    cases hs with
    | ack _ h1 h2 => exact ⟨h1, rfl, rfl⟩
  · intro c c' l i hs hne hacking
    cases hs with
    | fire j h => exact absurd rfl hne
    | send j h hch => exact absurd rfl hne
    | take j hw hch => cases hacking
    | finish j hw =>
        cases hacking
        exact ⟨hw, rfl⟩
    | ack j hw hcf => cases hacking
    | recv j h hcf => exact absurd rfl hne
    | recvIdle j h hcf => exact absurd rfl hne

/-- Configuration with one dispatched Schedule queued in the dispatch
buffer and the worker loop idle, about to receive it. -/
def c7a : Config := ⟨[SState.dispatched], WState.widle, some 0, [false]⟩

/-- The configuration after the worker loop receives schedule 0. -/
def c7b : Config := ⟨[SState.dispatched], WState.running 0, none, [false]⟩

/-- Claim C7, witness: the `New` facts and the consumer receive step at
a concrete configuration. -/
theorem scheduler_C7_witness :
    (New Nat).schedules = [] ∧ c7b.worker = WState.running 0 :=
  ⟨(scheduler_C7.1 Nat).1,
    (scheduler_C7.2.1 c7a c7b 0 (Step.take c7a 0 rfl rfl)).2.2.1⟩

end GoScheduler
